import Mathlib

/-!
Verification of the Snek serial REPL flow-control layer of the mu editor.

The module mu/modes/snek.py that implements SnekREPLConnection is not part
of the source tree (only its test suite, src/tests/modes/test_snek.py, is),
so the connection is modelled here from the specification (spec.md sections
3 and 4.3), with the repository test suite pinning down the behaviour
wherever it constrains it.  Bytes are natural numbers below 256, and every
channel-level side effect (writes, baud-rate changes, probes, timers,
delivery to subscribers) is recorded in an explicit event trace.
-/

namespace Snek

/-- Observable side effects of the connection.  dataWrite is a channel
write of payload bytes (super().write in the source), enqWrite is the
out-of-band ENQ byte written by send_enq, ackMark records the arrival of
an inbound ACK in a driver run, setBaud / probeWrite / waitForResponse are
the autobaud probing steps, startTimer is a single-shot timer scheduling
set_ready after the given number of milliseconds, openChannel is the base
class opening the serial channel, and emitData is delivery of a filtered
inbound batch to subscribers via the data_received event. -/
inductive Event where
  | dataWrite (bs : List Nat)
  | enqWrite
  | ackMark
  | setBaud (rate : Nat)
  | probeWrite
  | waitForResponse
  | startTimer (ms : Nat)
  | openChannel
  | emitData (bs : List Nat)
deriving DecidableEq

/-- Modelled from the spec: the attribute state of the missing
FlowControlledREPLConnection (SnekREPLConnection in mu/modes/snek.py),
spec.md section 3.  The spec attribute names are kept; the source test
suite calls them flowcontrol, chunk, sent, data, pending, waiting, ready,
got_dc4, wait_for_data, _baudrate. -/
structure Conn where
  flowcontrol : Bool
  chunk_size : Nat
  sent : Nat
  outbound_buffer : List Nat
  pending_buffer : List Nat
  waiting_for_ack : Bool
  ready : Bool
  seen_autobaud_response : Bool
  wait_for_incoming_data : Bool
  baud_rate : Nat
  baud_rate_candidates : List Nat
deriving DecidableEq

/-- Modelled from the spec: send_enq of the missing SnekREPLConnection
writes the single ENQ byte 0x05 directly to the channel, bypassing the
chunk accounting, and sets waiting_for_ack. -/
def send_enq (c : Conn) : Conn × List Event :=
  ({ c with waiting_for_ack := true }, [Event.enqWrite])

/-- Modelled from the spec: send_data of the missing SnekREPLConnection.
No-op when outbound_buffer is empty or waiting_for_ack holds; otherwise it
takes up to chunk_size - sent bytes off the front of the buffer, writes
them, and adds the amount to sent.  The while loop of the source runs its body
at most once per call (each iteration either empties the buffer or sets
waiting_for_ack), so it is embedded as a single conditional step.  An ENQ
follows exactly when sent reaches chunk_size: the repository test
test_send_data_exact_chunk requires the ENQ also when nothing remains in
the buffer, pinning this over the narrower wording of the spec. -/
def send_data (c : Conn) : Conn × List Event :=
  if c.outbound_buffer = [] ∨ c.waiting_for_ack = true then (c, [])
  else
    let amount := min (c.chunk_size - c.sent) c.outbound_buffer.length
    let piece := c.outbound_buffer.take amount
    let c1 : Conn := { c with
      outbound_buffer := c.outbound_buffer.drop amount,
      sent := c.sent + amount }
    if c1.sent = c1.chunk_size then
      let r := send_enq c1
      (r.1, Event.dataWrite piece :: r.2)
    else
      (c1, [Event.dataWrite piece])

/-- Modelled from the spec: recv_ack of the missing SnekREPLConnection
resets sent to 0 and waiting_for_ack to False and re-invokes send_data to
continue draining the outbound buffer. -/
def recv_ack (c : Conn) : Conn × List Event :=
  send_data { c with sent := 0, waiting_for_ack := false }

/-- Modelled from the spec: write of the missing SnekREPLConnection.
Before readiness the bytes are appended to pending_buffer with no
transmission; without flow control they pass straight through to the
channel; with flow control a batch containing Ctrl-C (0x03) replaces the
outbound buffer wholesale and resets the chunk accounting, otherwise the
batch is appended, and send_data is invoked either way. -/
def write (c : Conn) (b : List Nat) : Conn × List Event :=
  if c.ready = false then
    ({ c with pending_buffer := c.pending_buffer ++ b }, [])
  else if c.flowcontrol = true then
    if 3 ∈ b then
      send_data { c with outbound_buffer := b, sent := 0,
                         waiting_for_ack := false }
    else
      send_data { c with outbound_buffer := c.outbound_buffer ++ b }
  else
    (c, [Event.dataWrite b])

/-- Modelled from the spec: the autobaud probe loop inside set_ready of
the missing SnekREPLConnection.  For each candidate rate in order it sets
the channel baud rate, writes a probe byte and waits a bounded interval;
resp i tells whether a DC4 response is observed during the i-th wait.  The
loop stops after the first candidate for which the DC4 flag holds.  The
Bool argument carries the seen_autobaud_response flag through the loop. -/
def probe_rates (resp : Nat → Bool) : List Nat → Nat → Bool → Bool × List Event
  | [], _, got => (got, [])
  | r :: rest, i, got =>
    if got || resp i then
      (true, [Event.setBaud r, Event.probeWrite, Event.waitForResponse])
    else
      let t := probe_rates resp rest (i + 1) false
      (t.1, Event.setBaud r :: Event.probeWrite :: Event.waitForResponse :: t.2)

/-- Modelled from the spec: set_ready of the missing SnekREPLConnection.
Nothing happens when already ready.  Otherwise, with flow control the
candidate baud rates are probed in order, falling back to the default
baud rate when no candidate elicits a DC4 response; the connection then
becomes ready and the pending buffer is flushed through the write path. -/
def set_ready (c : Conn) (resp : Nat → Bool) : Conn × List Event :=
  if c.ready = true then (c, [])
  else
    let pr : Conn × List Event :=
      if c.flowcontrol = true then
        let t := probe_rates resp c.baud_rate_candidates 0
                   c.seen_autobaud_response
        if t.1 = true then
          ({ c with seen_autobaud_response := true }, t.2)
        else
          (c, t.2 ++ [Event.setBaud c.baud_rate])
      else (c, [])
    let p := pr.1.pending_buffer
    let c2 : Conn := { pr.1 with ready := true, pending_buffer := [] }
    let w := write c2 p
    (w.1, pr.2 ++ w.2)

/-- Modelled from the spec: open of the missing SnekREPLConnection.  The
base class channel open always happens; with wait_for_incoming_data a
single-shot 3000 ms timer scheduling set_ready is started instead of
becoming ready immediately, otherwise set_ready runs at once. -/
def openConn (c : Conn) (resp : Nat → Bool) : Conn × List Event :=
  if c.wait_for_incoming_data = true then
    (c, [Event.openChannel, Event.startTimer 3000])
  else
    let r := set_ready c resp
    (r.1, Event.openChannel :: r.2)

/-- Removal of every occurrence of one byte value from a batch, the
embedding of the byte replacement used by the inbound processing of the source. -/
def stripByte (b : Nat) (l : List Nat) : List Nat :=
  l.filter (fun x => x ≠ b)

/-- Modelled from the spec: the inbound handler (_on_serial_read /
on_bytes_received override) of the missing SnekREPLConnection.  An ACK
byte anywhere in the batch triggers recv_ack and all ACK bytes are
stripped; a DC4 byte sets seen_autobaud_response and all DC4 bytes are
stripped; when not yet ready a batch containing the byte 87 (ASCII W)
starts a single-shot 200 ms timer scheduling set_ready; the filtered
batch is always delivered to subscribers exactly once. -/
def on_bytes_received (c : Conn) (batch : List Nat) : Conn × List Event :=
  let ackStep := if 6 ∈ batch then recv_ack c else (c, [])
  let d1 := if 6 ∈ batch then stripByte 6 batch else batch
  let c1 := ackStep.1
  let c2 := if 20 ∈ d1 then { c1 with seen_autobaud_response := true } else c1
  let d2 := if 20 ∈ d1 then stripByte 20 d1 else d1
  let timerEvents :=
    if c2.ready = false ∧ 87 ∈ d2 then [Event.startTimer 200] else []
  (c2, ackStep.2 ++ timerEvents ++ [Event.emitData d2])

/-- Modelled from the spec: send_interrupt of the missing
SnekREPLConnection routes the two bytes Control-O, Control-C through the
write path of the connection itself. -/
def send_interrupt (c : Conn) : Conn × List Event :=
  write c [15, 3]

/-- Modelled from the spec: send_interrupt of the missing base
REPLConnection writes the two bytes Control-O, Control-C directly to the
channel, bypassing any buffering. -/
def base_send_interrupt : List Event :=
  [Event.dataWrite [15, 3]]

/-- Driver that keeps answering an outstanding ENQ with an ACK: while the
connection is waiting for an ACK it records the ACK arrival and runs
recv_ack, up to the given amount of fuel. -/
def drain : Nat → Conn → Conn × List Event
  | 0, c => (c, [])
  | fuel + 1, c =>
    if c.waiting_for_ack = true then
      let r := recv_ack c
      let r2 := drain fuel r.1
      (r2.1, Event.ackMark :: r.2 ++ r2.2)
    else (c, [])

/-- A ready, flow-controlled connection with chunk size k and outbound
buffer buf, all other state initial. -/
def stC (k : Nat) (buf : List Nat) : Conn :=
  { flowcontrol := true, chunk_size := k, sent := 0, outbound_buffer := buf,
    pending_buffer := [], waiting_for_ack := false, ready := true,
    seen_autobaud_response := false, wait_for_incoming_data := false,
    baud_rate := 115200, baud_rate_candidates := [] }

/-- One full flow-controlled transfer of payload p with chunk size k on a
fresh ready connection: a single application write followed by the
ACK-answering driver. -/
def run_stop_and_wait (k : Nat) (p : List Nat) : Conn × List Event :=
  let w := write (stC k []) p
  let d := drain p.length w.1
  (d.1, w.2 ++ d.2)

/-- The wire trace a stop-and-wait transfer must produce: full chunks each
followed by an ENQ and an ACK arrival, with a final short write carrying
no ENQ. -/
def expectedTrace (k : Nat) (l : List Nat) : List Event :=
  if h1 : k = 0 ∨ l = [] then []
  else if h2 : l.length < k then [Event.dataWrite l]
  else
    Event.dataWrite (l.take k) :: Event.enqWrite :: Event.ackMark ::
      expectedTrace k (l.drop k)
termination_by l.length
decreasing_by
  simp only [List.length_drop]
  have hk : k ≠ 0 := fun h => h1 (Or.inl h)
  omega

/-- Number of payload channel writes in a trace. -/
def countWrites (t : List Event) : Nat :=
  t.countP (fun e => match e with | Event.dataWrite _ => true | _ => false)

/-- Number of deliveries to subscribers recorded in a trace. -/
def countDeliveries (t : List Event) : Nat :=
  t.countP (fun e => match e with | Event.emitData _ => true | _ => false)

/-- Baud rates set on the channel, in order, extracted from a trace. -/
def baudsOf (t : List Event) : List Nat :=
  t.filterMap (fun e => match e with
    | Event.setBaud r => some r
    | _ => none)

/-- Sequential writes of several batches, accumulating the trace. -/
def writeAll : Conn → List (List Nat) → Conn × List Event
  | c, [] => (c, [])
  | c, b :: bs =>
    let w := write c b
    let r := writeAll w.1 bs
    (r.1, w.2 ++ r.2)

/-- A ready connection without flow control, used as a concrete input. -/
def connA : Conn := { stC 16 [] with flowcontrol := false }

/-- The state of a chunk-2 transfer of the four bytes 97..100 after the
first chunk went out: two bytes remain, sent is full, an ACK is awaited. -/
def connAfterAb : Conn :=
  { stC 2 [99, 100] with sent := 2, waiting_for_ack := true }

/-- The mid-chunk state of the repository test for the Ctrl-C write path:
stale outbound bytes, nonzero sent, an ACK outstanding. -/
def connMid : Conn :=
  { stC 4 [111, 108, 100] with sent := 5, waiting_for_ack := true }

/-- A not-yet-ready flow-controlled connection with two candidate baud
rates, used as a concrete autobaud input. -/
def cW : Conn :=
  { stC 2 [] with ready := false, baud_rate_candidates := [9600, 19200] }

lemma send_data_ready (c : Conn) : (send_data c).1.ready = c.ready := by
  simp only [send_data, send_enq]
  split
  · rfl
  · split <;> rfl

lemma send_data_pending (c : Conn) :
    (send_data c).1.pending_buffer = c.pending_buffer := by
  simp only [send_data, send_enq]
  split
  · rfl
  · split <;> rfl

lemma send_data_seen (c : Conn) :
    (send_data c).1.seen_autobaud_response = c.seen_autobaud_response := by
  simp only [send_data, send_enq]
  split
  · rfl
  · split <;> rfl

lemma send_data_trace_shape (c : Conn) :
    ∀ e ∈ (send_data c).2, (∃ bs, e = Event.dataWrite bs) ∨ e = Event.enqWrite := by
  simp only [send_data, send_enq]
  split
  · intro e he; simp at he
  · split
    · intro e he
      simp only [List.mem_cons, List.mem_singleton, List.not_mem_nil] at he
      rcases he with h | h | h
      · exact Or.inl ⟨_, h⟩
      · exact Or.inr h
      · exact absurd h (by simp)
    · intro e he
      simp only [List.mem_singleton] at he
      exact Or.inl ⟨_, he⟩

lemma recv_ack_ready (c : Conn) : (recv_ack c).1.ready = c.ready := by
  unfold recv_ack
  rw [send_data_ready]

lemma baudsOf_send_data (c : Conn) : baudsOf (send_data c).2 = [] := by
  simp only [send_data, send_enq]
  split
  · rfl
  · split <;> simp [baudsOf]

lemma write_ready (c : Conn) (b : List Nat) (h : c.ready = true) :
    (write c b).1.ready = true := by
  unfold write
  rw [h]
  simp only [Bool.true_eq_false, if_false]
  split
  · split <;> rw [send_data_ready]
  · exact h

lemma write_pending (c : Conn) (b : List Nat) (h : c.ready = true) :
    (write c b).1.pending_buffer = c.pending_buffer := by
  unfold write
  rw [h]
  simp only [Bool.true_eq_false, if_false]
  split
  · split <;> rw [send_data_pending]
  · rfl

lemma write_seen (c : Conn) (b : List Nat) (h : c.ready = true) :
    (write c b).1.seen_autobaud_response = c.seen_autobaud_response := by
  unfold write
  rw [h]
  simp only [Bool.true_eq_false, if_false]
  split
  · split <;> rw [send_data_seen]
  · rfl

lemma baudsOf_write (c : Conn) (b : List Nat) : baudsOf (write c b).2 = [] := by
  unfold write
  split
  · rfl
  · split
    · split <;> rw [baudsOf_send_data]
    · simp [baudsOf]

/-- Claim C10: set_ready is idempotent: on an already ready connection it
performs no write and leaves the whole state, the pending buffer included,
exactly as it was. -/
theorem C10_set_ready_idempotent (c : Conn) (resp : Nat → Bool)
    (h : c.ready = true) : set_ready c resp = (c, []) := by
  unfold set_ready
  rw [h]
  simp

theorem C10_set_ready_idempotent_witness :
    set_ready { connA with pending_buffer := [97, 98, 99] } (fun _ => false)
      = ({ connA with pending_buffer := [97, 98, 99] }, []) :=
  C10_set_ready_idempotent { connA with pending_buffer := [97, 98, 99] }
    (fun _ => false) rfl

/-- Claim C4: a write of bytes containing Ctrl-C (0x03) on a ready,
flow-controlled connection replaces the outbound buffer wholesale, resets
sent to 0 and waiting_for_ack to False, and then invokes send_data,
regardless of any chunk previously in flight; concretely, on the mid-chunk
state of the repository test (buffer b"old", sent 5, ACK outstanding, chunk
size 4) writing b"foo\x03bar" transmits the first four new bytes followed
by an ENQ, leaving the remaining three new bytes buffered and nothing of
the old buffer on the wire. -/
theorem C4_ctrl_c_restart :
    (∀ (c : Conn) (b : List Nat), c.ready = true → c.flowcontrol = true →
      3 ∈ b →
      write c b = send_data { c with outbound_buffer := b, sent := 0,
                                     waiting_for_ack := false }) ∧
    (write connMid [102, 111, 111, 3, 98, 97, 114]).2
        = [Event.dataWrite [102, 111, 111, 3], Event.enqWrite] ∧
    (write connMid [102, 111, 111, 3, 98, 97, 114]).1.outbound_buffer
        = [98, 97, 114] ∧
    (write connMid [102, 111, 111, 3, 98, 97, 114]).1.sent = 4 ∧
    (write connMid [102, 111, 111, 3, 98, 97, 114]).1.waiting_for_ack = true := by
  refine ⟨?_, by decide, by decide, by decide, by decide⟩
  intro c b hr hf hb
  unfold write
  rw [hr, hf]
  simp [hb]

theorem C4_ctrl_c_restart_witness :
    write connMid [102, 111, 111, 3, 98, 97, 114]
      = send_data { connMid with
          outbound_buffer := [102, 111, 111, 3, 98, 97, 114], sent := 0,
          waiting_for_ack := false } :=
  C4_ctrl_c_restart.1 connMid [102, 111, 111, 3, 98, 97, 114] rfl rfl
    (by decide)

/-- Claim C6: recv_ack always resets sent to 0 and waiting_for_ack to
False and re-invokes send_data; with an empty outbound buffer it no-ops
through the guard of send_data (nothing is written, so no byte can be sent
twice), and with buffered data it continues draining by writing the next
chunk off the front of the buffer. -/
theorem C6_recv_ack :
    (∀ c : Conn,
      recv_ack c = send_data { c with sent := 0, waiting_for_ack := false }) ∧
    (∀ c : Conn, c.outbound_buffer = [] →
      recv_ack c = ({ c with sent := 0, waiting_for_ack := false }, [])) ∧
    (∀ c : Conn, c.outbound_buffer ≠ [] →
      ∃ t, (recv_ack c).2
        = Event.dataWrite
            (c.outbound_buffer.take
              (min c.chunk_size c.outbound_buffer.length)) :: t) := by
  refine ⟨fun c => rfl, ?_, ?_⟩
  · intro c h
    simp only [recv_ack, send_data]
    simp [h]
  · intro c h
    simp only [recv_ack, send_data, send_enq, h, Nat.sub_zero, Nat.zero_add,
      Bool.false_eq_true, or_self, if_false, false_or]
    split
    · exact ⟨_, rfl⟩
    · exact ⟨_, rfl⟩

theorem C6_recv_ack_witness :
    recv_ack { connA with sent := 7, waiting_for_ack := true }
      = ({ connA with sent := 0, waiting_for_ack := false }, []) :=
  C6_recv_ack.2.1 { connA with sent := 7, waiting_for_ack := true } rfl

/-- Claim C7: the flow-controlled send_interrupt routes the two bytes
Control-O, Control-C through the write path of the connection itself, so it is
gated on readiness (queued to pending when not ready, unlike the base
class, which writes the bytes directly to the channel regardless) and,
when ready with flow control, goes through the Ctrl-C wholesale-replace
logic of write. -/
theorem C7_send_interrupt :
    (∀ c : Conn, send_interrupt c = write c [15, 3]) ∧
    (∀ c : Conn, c.ready = false →
      send_interrupt c
        = ({ c with pending_buffer := c.pending_buffer ++ [15, 3] }, []) ∧
      (send_interrupt c).2 ≠ base_send_interrupt) ∧
    (∀ c : Conn, c.ready = true → c.flowcontrol = true →
      send_interrupt c
        = send_data { c with outbound_buffer := [15, 3], sent := 0,
                             waiting_for_ack := false }) := by
  refine ⟨fun c => rfl, ?_, ?_⟩
  · intro c h
    unfold send_interrupt write
    rw [h]
    simp [base_send_interrupt]
  · intro c hr hf
    unfold send_interrupt write
    rw [hr, hf]
    simp

theorem C7_send_interrupt_witness :
    send_interrupt { connA with ready := false }
      = ({ connA with ready := false, pending_buffer := [15, 3] }, []) := by
  have h := (C7_send_interrupt.2.1 { connA with ready := false } rfl).1
  simpa using h

/-- Claim C2 counterexample: on the post-ACK state of the very
chunk_size 2, payload b"abcd" scenario (buffer b"cd", sent reset by the
ACK), the code emits the final write of b"cd" and then a trailing ENQ,
because the ENQ is sent whenever sent reaches chunk_size even though the
outbound buffer is left empty; the claim says no ENQ is sent when no more
data remains. -/
theorem C2_counterexample :
    (recv_ack connAfterAb).2
        = [Event.dataWrite [99, 100], Event.enqWrite] ∧
    (recv_ack connAfterAb).1.outbound_buffer = [] ∧
    (recv_ack connAfterAb).1.waiting_for_ack = true := by
  decide

/-- Claim C2 as amended: in flow-controlled send_data an ENQ follows the
written chunk exactly when the bytes written fill the chunk boundary
(sent reaches chunk_size), whether or not data remains in the outbound
buffer; with chunk_size 2 and payload b"abcd" the first write emits b"ab"
then ENQ leaving sent 2 and buffer b"cd", and after the simulated ACK the
final write emits b"cd" followed by a trailing ENQ, leaving sent 2 and the
outbound buffer empty. -/
theorem C2_enq_on_chunk_boundary :
    (∀ c : Conn, c.outbound_buffer ≠ [] → c.waiting_for_ack = false →
      (Event.enqWrite ∈ (send_data c).2 ↔ (send_data c).1.sent = c.chunk_size)) ∧
    (write (stC 2 []) [97, 98, 99, 100]).2
        = [Event.dataWrite [97, 98], Event.enqWrite] ∧
    (write (stC 2 []) [97, 98, 99, 100]).1.sent = 2 ∧
    (write (stC 2 []) [97, 98, 99, 100]).1.outbound_buffer = [99, 100] ∧
    (write (stC 2 []) [97, 98, 99, 100]).1.waiting_for_ack = true ∧
    (recv_ack (write (stC 2 []) [97, 98, 99, 100]).1).2
        = [Event.dataWrite [99, 100], Event.enqWrite] ∧
    (recv_ack (write (stC 2 []) [97, 98, 99, 100]).1).1.sent = 2 ∧
    (recv_ack (write (stC 2 []) [97, 98, 99, 100]).1).1.outbound_buffer = [] := by
  refine ⟨?_, by decide, by decide, by decide, by decide, by decide,
    by decide, by decide⟩
  intro c hb hw
  unfold send_data send_enq
  simp only [hb, hw, Bool.false_eq_true, or_self, if_false, false_or]
  split
  · rename_i hs
    simp [hs]
  · rename_i hs
    simp [hs]

theorem C2_enq_on_chunk_boundary_witness :
    Event.enqWrite ∈ (send_data (stC 3 [120, 121, 122])).2 ↔
      (send_data (stC 3 [120, 121, 122])).1.sent
        = (stC 3 [120, 121, 122]).chunk_size :=
  C2_enq_on_chunk_boundary.1 (stC 3 [120, 121, 122]) (by decide) rfl

lemma writeAll_queues : ∀ (bs : List (List Nat)) (c : Conn),
    c.ready = false →
    writeAll c bs
      = ({ c with pending_buffer := c.pending_buffer ++ bs.flatten }, []) := by
  intro bs
  induction bs with
  | nil => intro c h; simp [writeAll]
  | cons b bs ih =>
    intro c h
    have hw : write c b
        = ({ c with pending_buffer := c.pending_buffer ++ b }, []) := by
      unfold write
      rw [h]
      simp
    simp only [writeAll, hw]
    rw [ih { c with pending_buffer := c.pending_buffer ++ b } h]
    simp [List.append_assoc]

/-- Claim C3: bytes written while the connection is not ready are queued
to pending_buffer in order with no transmission attempted, and once
set_ready runs (here without flow control, as in the repository test) the
accumulated pending bytes are flushed verbatim through the write path in a
single write, leaving pending_buffer empty. -/
theorem C3_pending_flush (c : Conn) (bs : List (List Nat)) (resp : Nat → Bool)
    (hr : c.ready = false) (hf : c.flowcontrol = false) :
    writeAll c bs
      = ({ c with pending_buffer := c.pending_buffer ++ bs.flatten }, []) ∧
    set_ready (writeAll c bs).1 resp
      = ({ c with ready := true, pending_buffer := [] },
         [Event.dataWrite (c.pending_buffer ++ bs.flatten)]) := by
  have hq := writeAll_queues bs c hr
  refine ⟨hq, ?_⟩
  rw [hq]
  simp [set_ready, write, hr, hf]

theorem C3_pending_flush_witness :
    writeAll { connA with ready := false } [[97, 98], [99], [100, 101]]
      = ({ connA with ready := false,
                      pending_buffer := [97, 98, 99, 100, 101] }, []) ∧
    set_ready
        (writeAll { connA with ready := false }
          [[97, 98], [99], [100, 101]]).1 (fun _ => false)
      = ({ connA with pending_buffer := [] },
         [Event.dataWrite [97, 98, 99, 100, 101]]) := by
  have h := C3_pending_flush { connA with ready := false }
    [[97, 98], [99], [100, 101]] (fun _ => false) rfl rfl
  exact ⟨by simpa using h.1, by simpa using h.2⟩

lemma stripByte_of_not_mem (b : Nat) (l : List Nat) (h : b ∉ l) :
    stripByte b l = l := by
  unfold stripByte
  apply List.filter_eq_self.mpr
  intro x hx
  simp only [decide_eq_true_eq]
  exact fun hcon => h (hcon ▸ hx)

lemma strip_cond (b : Nat) (l : List Nat) :
    (if b ∈ l then stripByte b l else l) = stripByte b l := by
  split
  · rfl
  · rename_i h
    rw [stripByte_of_not_mem b l h]

/-- Claim C5 counterexample: an inbound batch with an ENQ byte (0x05)
embedded between printable bytes is delivered to subscribers with the ENQ
still present: the inbound handler strips only ACK (0x06) and DC4 (0x14),
so the claim that ENQ bytes are stripped before delivery is false. -/
theorem C5_counterexample :
    Event.emitData [97, 5, 98] ∈ (on_bytes_received connA [97, 5, 98]).2 ∧
    ¬ Event.emitData [97, 98] ∈ (on_bytes_received connA [97, 5, 98]).2 := by
  decide

/-- Claim C5 as amended: for every inbound batch, on_bytes_received
delivers to subscribers, exactly once per batch, the batch with every ACK
(0x06) and DC4 (0x14) byte stripped, wherever those bytes are embedded;
all remaining bytes, ENQ (0x05) included (ENQ is not stripped), are
preserved in their original relative order with no loss and no
duplication. -/
theorem C5_ack_dc4_stripped (c : Conn) (batch : List Nat) :
    countDeliveries (on_bytes_received c batch).2 = 1 ∧
    Event.emitData (stripByte 20 (stripByte 6 batch))
        ∈ (on_bytes_received c batch).2 ∧
    6 ∉ stripByte 20 (stripByte 6 batch) ∧
    20 ∉ stripByte 20 (stripByte 6 batch) ∧
    (stripByte 20 (stripByte 6 batch)).Sublist batch ∧
    (∀ x ∈ batch, x ≠ 6 → x ≠ 20 →
      x ∈ stripByte 20 (stripByte 6 batch)) := by
  refine ⟨?_, ?_, ?_, ?_, ?_, ?_⟩
  · simp only [on_bytes_received, strip_cond, countDeliveries,
      List.countP_append]
    have hack : ∀ d : Conn, (recv_ack d).2.countP
        (fun e => match e with | Event.emitData _ => true | _ => false)
          = 0 := by
      intro d
      apply List.countP_eq_zero.mpr
      intro e he
      rcases send_data_trace_shape _ e he with ⟨bs, h⟩ | h <;> simp [h]
    split <;> split <;>
      simp [hack, List.countP_cons, List.countP_nil] <;>
      (intro a h1 h2 h3; subst h3; rfl)
  · simp [on_bytes_received, strip_cond]
  · intro h
    have h1 := (List.mem_filter.mp h).1
    have h6 := (List.mem_filter.mp h1).2
    simp at h6
  · intro h
    have h20 := (List.mem_filter.mp h).2
    simp at h20
  · exact (List.filter_sublist _).trans (List.filter_sublist _)
  · intro x hx h6 h20
    unfold stripByte
    rw [List.mem_filter, List.mem_filter]
    refine ⟨⟨hx, ?_⟩, ?_⟩ <;> simp [h6, h20]

lemma drain_not_waiting (fuel : Nat) (c : Conn)
    (h : c.waiting_for_ack = false) : drain fuel c = (c, []) := by
  cases fuel with
  | zero => rfl
  | succ f => simp [drain, h]

lemma drain_waiting (fuel : Nat) (c : Conn) (h : c.waiting_for_ack = true) :
    drain (fuel + 1) c
      = ((drain fuel (recv_ack c).1).1,
         Event.ackMark :: (recv_ack c).2 ++ (drain fuel (recv_ack c).1).2) := by
  simp [drain, h]

lemma send_data_stC_nil (k : Nat) : send_data (stC k []) = (stC k [], []) := by
  simp [send_data, stC]

lemma send_data_stC_small (k : Nat) (buf : List Nat) (hb : buf ≠ [])
    (hlt : buf.length < k) :
    send_data (stC k buf)
      = ({ stC k [] with sent := buf.length }, [Event.dataWrite buf]) := by
  have hmin : min (k - 0) buf.length = buf.length := by
    rw [Nat.sub_zero]
    exact Nat.min_eq_right (Nat.le_of_lt hlt)
  simp only [send_data, stC]
  rw [if_neg (by simp [hb])]
  rw [hmin]
  rw [if_neg (by omega : ¬ (0 + buf.length = k))]
  simp [List.take_length, List.drop_length, stC]

lemma send_data_stC_big (k : Nat) (buf : List Nat) (hk : 0 < k)
    (hge : k ≤ buf.length) :
    send_data (stC k buf)
      = ({ stC k (buf.drop k) with sent := k, waiting_for_ack := true },
         [Event.dataWrite (buf.take k), Event.enqWrite]) := by
  have hb : buf ≠ [] := by
    intro h
    subst h
    simp at hge
    omega
  have hmin : min (k - 0) buf.length = k := by
    rw [Nat.sub_zero]
    exact Nat.min_eq_left hge
  simp only [send_data, send_enq, stC]
  rw [if_neg (by simp [hb])]
  rw [hmin]
  rw [if_pos (by omega : 0 + k = k)]
  simp [stC]

lemma expectedTrace_nil (k : Nat) : expectedTrace k [] = [] := by
  unfold expectedTrace
  rw [dif_pos (Or.inr rfl)]

lemma expectedTrace_small (k : Nat) (l : List Nat) (hb : l ≠ [])
    (hk : k ≠ 0) (hlt : l.length < k) :
    expectedTrace k l = [Event.dataWrite l] := by
  unfold expectedTrace
  rw [dif_neg (not_or.mpr ⟨hk, hb⟩), dif_pos hlt]

lemma expectedTrace_big (k : Nat) (l : List Nat) (hb : l ≠ [])
    (hk : k ≠ 0) (hge : ¬ l.length < k) :
    expectedTrace k l
      = Event.dataWrite (l.take k) :: Event.enqWrite :: Event.ackMark ::
          expectedTrace k (l.drop k) := by
  conv_lhs => unfold expectedTrace
  rw [dif_neg (not_or.mpr ⟨hk, hb⟩), dif_neg hge]

lemma pump_spec (k : Nat) (hk : 0 < k) :
    ∀ (fuel : Nat) (buf : List Nat), buf.length ≤ fuel →
      (send_data (stC k buf)).2
          ++ (drain fuel (send_data (stC k buf)).1).2
        = expectedTrace k buf := by
  intro fuel
  induction fuel with
  | zero =>
    intro buf h
    have hb : buf = [] := List.eq_nil_of_length_eq_zero (Nat.le_zero.mp h)
    subst hb
    rw [send_data_stC_nil, expectedTrace_nil]
    simp [drain]
  | succ f ih =>
    intro buf h
    by_cases hb : buf = []
    · subst hb
      rw [send_data_stC_nil, expectedTrace_nil]
      rw [drain_not_waiting _ _ rfl]
      simp
    · by_cases hlt : buf.length < k
      · rw [send_data_stC_small k buf hb hlt]
        rw [drain_not_waiting _ _ rfl]
        rw [expectedTrace_small k buf hb (by omega) hlt]
        simp
      · have hge : k ≤ buf.length := Nat.le_of_not_lt hlt
        rw [send_data_stC_big k buf hk hge]
        rw [drain_waiting f _ rfl]
        have hrec : recv_ack { stC k (buf.drop k) with
                                 sent := k,
                                 waiting_for_ack := true }
            = send_data (stC k (buf.drop k)) := rfl
        rw [hrec]
        rw [expectedTrace_big k buf hb (by omega) hlt]
        have hlen : (buf.drop k).length ≤ f := by
          rw [List.length_drop]
          omega
        have hih := ih (buf.drop k) hlen
        simp only [List.cons_append, List.nil_append]
        rw [hih]

lemma countWrites_expectedTrace (k : Nat) (hk : 0 < k) :
    ∀ (n : Nat) (l : List Nat), l.length ≤ n →
      countWrites (expectedTrace k l) = (l.length + k - 1) / k := by
  intro n
  induction n with
  | zero =>
    intro l h
    have hb : l = [] := List.eq_nil_of_length_eq_zero (Nat.le_zero.mp h)
    subst hb
    rw [expectedTrace_nil]
    simp [countWrites]
    exact (Nat.div_eq_of_lt (by omega)).symm
  | succ n ih =>
    intro l h
    by_cases hb : l = []
    · subst hb
      rw [expectedTrace_nil]
      simp [countWrites]
      exact (Nat.div_eq_of_lt (by omega)).symm
    · by_cases hlt : l.length < k
      · rw [expectedTrace_small k l hb (by omega) hlt]
        have hl1 : 1 ≤ l.length := List.length_pos.mpr hb
        have he : l.length + k - 1 = (l.length - 1) + k := by omega
        rw [he, Nat.add_div_right _ hk, Nat.div_eq_of_lt (by omega)]
        simp [countWrites]
      · have hge : k ≤ l.length := Nat.le_of_not_lt hlt
        rw [expectedTrace_big k l hb (by omega) hlt]
        have hlen : (l.drop k).length ≤ n := by
          rw [List.length_drop]
          omega
        have hih := ih (l.drop k) hlen
        rw [List.length_drop] at hih
        have he : l.length + k - 1 = (l.length - k + k - 1) + k := by omega
        rw [he, Nat.add_div_right _ hk]
        simp only [countWrites, List.countP_cons] at hih ⊢
        rw [hih]
        simp

/-- Claim C1: stop-and-wait discipline.  send_data writes nothing when the
outbound buffer is empty or an ACK is outstanding, so at most one
unacknowledged chunk is in flight; and a full transfer of a payload on a
fresh ready flow-controlled connection (one application write, each ENQ
answered by an ACK) produces exactly the chunk decomposition on the wire:
ceil(len / chunk_size) payload writes, each full chunk followed by an ENQ
and its ACK before the next chunk goes out, as expectedTrace prescribes. -/
theorem C1_stop_and_wait :
    (∀ c : Conn, c.outbound_buffer = [] ∨ c.waiting_for_ack = true →
      send_data c = (c, [])) ∧
    (∀ (k : Nat) (p : List Nat), 0 < k → 3 ∉ p →
      (run_stop_and_wait k p).2 = expectedTrace k p ∧
      countWrites (run_stop_and_wait k p).2 = (p.length + k - 1) / k) := by
  constructor
  · intro c h
    simp only [send_data]
    rw [if_pos h]
  · intro k p hk hp
    have hw : write (stC k []) p = send_data (stC k p) := by
      unfold write
      rw [if_neg (by simp [stC]),
        if_pos (show (stC k []).flowcontrol = true from rfl), if_neg hp]
      rfl
    have htr : (run_stop_and_wait k p).2 = expectedTrace k p := by
      show (write (stC k []) p).2
          ++ (drain p.length (write (stC k []) p).1).2 = expectedTrace k p
      rw [hw]
      exact pump_spec k hk p.length p (le_refl _)
    refine ⟨htr, ?_⟩
    rw [htr]
    exact countWrites_expectedTrace k hk p.length p (le_refl _)

theorem C1_stop_and_wait_witness :
    send_data { connA with waiting_for_ack := true, outbound_buffer := [97] }
        = ({ connA with waiting_for_ack := true, outbound_buffer := [97] },
           []) ∧
    (run_stop_and_wait 2 [97, 98, 99, 100, 101]).2
        = expectedTrace 2 [97, 98, 99, 100, 101] ∧
    countWrites (run_stop_and_wait 2 [97, 98, 99, 100, 101]).2 = 3 := by
  have h1 := C1_stop_and_wait.1
    { connA with waiting_for_ack := true, outbound_buffer := [97] }
    (Or.inr rfl)
  have h2 := C1_stop_and_wait.2 2 [97, 98, 99, 100, 101] (by decide)
    (by decide)
  exact ⟨h1, h2.1, by rw [h2.2]; decide⟩

theorem C5_ack_dc4_stripped_witness :
    countDeliveries (on_bytes_received connA [104, 6, 5, 20, 105]).2 = 1 ∧
    Event.emitData [104, 5, 105]
        ∈ (on_bytes_received connA [104, 6, 5, 20, 105]).2 ∧
    104 ∈ stripByte 20 (stripByte 6 [104, 6, 5, 20, 105]) := by
  have h := C5_ack_dc4_stripped connA [104, 6, 5, 20, 105]
  exact ⟨h.1, by simpa using h.2.1,
    h.2.2.2.2.2 104 (by decide) (by decide) (by decide)⟩

lemma probe_none (resp : Nat → Bool) :
    ∀ (rates : List Nat) (i : Nat),
      (∀ j, j < rates.length → resp (i + j) = false) →
      (probe_rates resp rates i false).1 = false ∧
      baudsOf (probe_rates resp rates i false).2 = rates := by
  intro rates
  induction rates with
  | nil => intro i h; exact ⟨rfl, rfl⟩
  | cons r rest ih =>
    intro i h
    have h0 : resp i = false := by
      have := h 0 (by simp)
      simpa using this
    have hrest := ih (i + 1) (fun j hj => by
      have := h (j + 1) (by simpa using Nat.succ_lt_succ hj)
      rwa [show i + (j + 1) = i + 1 + j by omega] at this)
    simp only [probe_rates]
    rw [if_neg (by simp [h0])]
    refine ⟨hrest.1, ?_⟩
    simp only [baudsOf, List.filterMap_cons] at hrest ⊢
    rw [hrest.2]

lemma probe_found (resp : Nat → Bool) :
    ∀ (rates : List Nat) (i j : Nat), j < rates.length →
      resp (i + j) = true → (∀ m, m < j → resp (i + m) = false) →
      (probe_rates resp rates i false).1 = true ∧
      baudsOf (probe_rates resp rates i false).2 = rates.take (j + 1) := by
  intro rates
  induction rates with
  | nil => intro i j hj; simp at hj
  | cons r rest ih =>
    intro i j hj hresp hbefore
    cases j with
    | zero =>
      have h0 : resp i = true := by simpa using hresp
      simp only [probe_rates]
      rw [if_pos (by simp [h0])]
      exact ⟨rfl, by simp [baudsOf]⟩
    | succ j =>
      have h0 : resp i = false := by
        have := hbefore 0 (Nat.succ_pos j)
        simpa using this
      have hrest := ih (i + 1) j (by simpa using Nat.lt_of_succ_lt_succ hj)
        (by rwa [show i + 1 + j = i + (j + 1) by omega])
        (fun m hm => by
          have := hbefore (m + 1) (Nat.succ_lt_succ hm)
          rwa [show i + (m + 1) = i + 1 + m by omega] at this)
      simp only [probe_rates]
      rw [if_neg (by simp [h0])]
      refine ⟨hrest.1, ?_⟩
      simp only [baudsOf, List.filterMap_cons, List.take_succ_cons]
        at hrest ⊢
      rw [hrest.2]

lemma baudsOf_append (a b : List Event) :
    baudsOf (a ++ b) = baudsOf a ++ baudsOf b := by
  unfold baudsOf
  exact List.filterMap_append a b _

lemma set_ready_flow_found (c : Conn) (resp : Nat → Bool)
    (hr : c.ready = false) (hf : c.flowcontrol = true)
    (hs : c.seen_autobaud_response = false)
    (hfound : (probe_rates resp c.baud_rate_candidates 0 false).1 = true) :
    set_ready c resp
      = ((write { c with seen_autobaud_response := true, ready := true,
                         pending_buffer := [] } c.pending_buffer).1,
         (probe_rates resp c.baud_rate_candidates 0 false).2
           ++ (write { c with seen_autobaud_response := true, ready := true,
                              pending_buffer := [] } c.pending_buffer).2) := by
  simp [set_ready, hr, hf, hs, hfound]

lemma set_ready_flow_none (c : Conn) (resp : Nat → Bool)
    (hr : c.ready = false) (hf : c.flowcontrol = true)
    (hs : c.seen_autobaud_response = false)
    (hnone : (probe_rates resp c.baud_rate_candidates 0 false).1 = false) :
    set_ready c resp
      = ((write { c with ready := true, pending_buffer := [] }
            c.pending_buffer).1,
         ((probe_rates resp c.baud_rate_candidates 0 false).2
             ++ [Event.setBaud c.baud_rate])
           ++ (write { c with ready := true, pending_buffer := [] }
                 c.pending_buffer).2) := by
  simp [set_ready, hr, hf, hs, hnone]

/-- Claim C8: with flow control, set_ready probes the candidate baud rates
in order (setting the channel rate, writing a probe byte, waiting) and
stops at the first candidate whose wait observes a DC4 response, setting
seen_autobaud_response; when no candidate responds it falls back to the
default baud rate and seen_autobaud_response stays unset.  In either
outcome the connection becomes ready and the pending buffer is flushed. -/
theorem C8_autobaud (c : Conn) (resp : Nat → Bool)
    (hf : c.flowcontrol = true) (hr : c.ready = false)
    (hs : c.seen_autobaud_response = false) :
    ((set_ready c resp).1.ready = true ∧
     (set_ready c resp).1.pending_buffer = []) ∧
    ((∀ j, j < c.baud_rate_candidates.length → resp j = false) →
      baudsOf (set_ready c resp).2
          = c.baud_rate_candidates ++ [c.baud_rate] ∧
      (set_ready c resp).1.seen_autobaud_response = false) ∧
    (∀ j, j < c.baud_rate_candidates.length → resp j = true →
      (∀ m, m < j → resp m = false) →
      baudsOf (set_ready c resp).2
          = c.baud_rate_candidates.take (j + 1) ∧
      (set_ready c resp).1.seen_autobaud_response = true) := by
  by_cases hpb : (probe_rates resp c.baud_rate_candidates 0 false).1 = true
  · rw [set_ready_flow_found c resp hr hf hs hpb]
    refine ⟨⟨write_ready _ _ rfl, ?_⟩, ?_, ?_⟩
    · rw [write_pending _ _ rfl]
    · intro hnone
      have hp := probe_none resp c.baud_rate_candidates 0
        (fun j hj => by simpa using hnone j hj)
      rw [hp.1] at hpb
      exact absurd hpb (by simp)
    · intro j hj hrj hbef
      have hp := probe_found resp c.baud_rate_candidates 0 j hj
        (by simpa using hrj) (fun m hm => by simpa using hbef m hm)
      constructor
      · rw [baudsOf_append, hp.2, baudsOf_write]
        simp
      · rw [write_seen _ _ rfl]
  · have hpbf : (probe_rates resp c.baud_rate_candidates 0 false).1
        = false := by
      simpa using hpb
    rw [set_ready_flow_none c resp hr hf hs hpbf]
    refine ⟨⟨write_ready _ _ rfl, ?_⟩, ?_, ?_⟩
    · rw [write_pending _ _ rfl]
    · intro hnone
      have hp := probe_none resp c.baud_rate_candidates 0
        (fun j hj => by simpa using hnone j hj)
      constructor
      · rw [baudsOf_append, baudsOf_append, hp.2, baudsOf_write]
        simp [baudsOf]
      · rw [write_seen _ _ rfl]
        exact hs
    · intro j hj hrj hbef
      have hp := probe_found resp c.baud_rate_candidates 0 j hj
        (by simpa using hrj) (fun m hm => by simpa using hbef m hm)
      rw [hp.1] at hpbf
      exact absurd hpbf (by simp)

theorem C8_autobaud_witness :
    baudsOf (set_ready cW (fun _ => true)).2 = [9600] ∧
    (set_ready cW (fun _ => true)).1.ready = true ∧
    (set_ready cW (fun _ => true)).1.pending_buffer = [] ∧
    (set_ready cW (fun _ => true)).1.seen_autobaud_response = true := by
  have h := C8_autobaud cW (fun _ => true) rfl rfl rfl
  have h3 := h.2.2 0 (by decide) rfl (fun m hm => absurd hm (Nat.not_lt_zero m))
  exact ⟨by simpa using h3.1, h.1.1, h.1.2, h3.2⟩

lemma on_bytes_received_ready (c : Conn) (batch : List Nat) :
    (on_bytes_received c batch).1.ready = c.ready := by
  simp only [on_bytes_received]
  repeat' split
  all_goals simp [recv_ack_ready]

lemma mem_stripByte (a b : Nat) (l : List Nat) (hne : a ≠ b) :
    a ∈ stripByte b l ↔ a ∈ l := by
  unfold stripByte
  rw [List.mem_filter]
  simp [hne]

lemma on_bytes_received_eq (c : Conn) (batch : List Nat) :
    on_bytes_received c batch
      = ((if 20 ∈ stripByte 6 batch then
            { (if 6 ∈ batch then recv_ack c else (c, [])).1 with
                seen_autobaud_response := true }
          else (if 6 ∈ batch then recv_ack c else (c, [])).1),
         (if 6 ∈ batch then recv_ack c else (c, [])).2
           ++ (if c.ready = false
                  ∧ 87 ∈ stripByte 20 (stripByte 6 batch)
               then [Event.startTimer 200] else [])
           ++ [Event.emitData (stripByte 20 (stripByte 6 batch))]) := by
  by_cases h6 : 6 ∈ batch <;> by_cases h20 : 20 ∈ batch <;>
    simp [on_bytes_received, strip_cond, h6, h20, recv_ack_ready,
      stripByte_of_not_mem, mem_stripByte]

/-- Claim C9: readiness deferral uses the specified bounded timers: open
with wait_for_incoming_data schedules set_ready on a single-shot 3000 ms
timer instead of probing, and an inbound batch containing the byte 87
(ASCII W) while not yet ready schedules set_ready on a single-shot 200 ms
timer rather than making the connection ready immediately (the state is
still not ready after the batch, and no timer with any other delay is
started by the handler). -/
theorem C9_timers :
    (∀ (c : Conn) (resp : Nat → Bool), c.wait_for_incoming_data = true →
      openConn c resp = (c, [Event.openChannel, Event.startTimer 3000])) ∧
    (∀ (c : Conn) (batch : List Nat), c.ready = false → 87 ∈ batch →
      Event.startTimer 200 ∈ (on_bytes_received c batch).2 ∧
      (on_bytes_received c batch).1.ready = false ∧
      (∀ ms, Event.startTimer ms ∈ (on_bytes_received c batch).2 →
        ms = 200)) := by
  constructor
  · intro c resp h
    unfold openConn
    rw [if_pos h]
  · intro c batch hr h87
    have h87D : 87 ∈ stripByte 20 (stripByte 6 batch) := by
      rw [mem_stripByte 87 20 _ (by decide), mem_stripByte 87 6 _ (by decide)]
      exact h87
    refine ⟨?_, ?_, ?_⟩
    · rw [on_bytes_received_eq]
      simp only [List.mem_append]
      refine Or.inl (Or.inr ?_)
      rw [if_pos ⟨hr, h87D⟩]
      simp
    · rw [on_bytes_received_ready]
      exact hr
    · intro ms hms
      rw [on_bytes_received_eq] at hms
      simp only [List.mem_append, List.mem_singleton] at hms
      rcases hms with (h | h) | h
      · exfalso
        revert h
        split
        · intro h
          rcases send_data_trace_shape _ _ h with ⟨bs, he⟩ | he <;>
            simp at he
        · intro h
          simp at h
      · rw [if_pos ⟨hr, h87D⟩] at h
        simpa using h
      · simp at h

theorem C9_timers_witness :
    openConn { connA with wait_for_incoming_data := true, ready := false }
        (fun _ => false)
      = ({ connA with wait_for_incoming_data := true, ready := false },
         [Event.openChannel, Event.startTimer 3000]) ∧
    Event.startTimer 200
        ∈ (on_bytes_received { connA with ready := false } [87, 97]).2 :=
  ⟨C9_timers.1 { connA with wait_for_incoming_data := true, ready := false }
      (fun _ => false) rfl,
   (C9_timers.2 { connA with ready := false } [87, 97] rfl (by decide)).1⟩

end Snek
